import Mathlib

/-!
Shallow embedding of the authenticated request pipeline, order strategies and
validators of a Binance USDT-M futures trading bot, together with proofs of
the behavioural properties its specification states.

The embedding follows the Python source:
- config.py          : `MAX_RETRIES`, `RETRY_DELAY`, `DEFAULT_RECV_WINDOW`
- binance_client.py  : `generate_signature`, `signParams`, `runAttempts`, `send`
- grid_orders.py     : `gridPrice`, `gridPricesList`, `gridAttempts`
- twap.py            : `twapQty`, `twapSlice`, `twapResults`, `twapSleeps`
- validators.py      : `validate_quantity`

Python floats are modelled as rationals (ℚ); the quantities in every property
below are exactly representable, so the idealisation is faithful there.
Python `round(x, n)` is modelled with Mathlib `round` (half-up); it differs
from Python's half-even rule only at exact half-ulp ties, which do not occur
in any property proved here.
-/

/-! ### Configuration constants (config.py) -/

def MAX_RETRIES : Nat := 3

def RETRY_DELAY : Nat := 1

def DEFAULT_RECV_WINDOW : Nat := 60000

/-! ### Request pipeline state machine (binance_client.py, `_request`) -/

/-- Outcome of one HTTP attempt, as seen by the retry loop: either a
transport-level failure (`requests.exceptions.RequestException`: connection
error or timeout) or an HTTP response with a status code and body. -/
inductive Outcome where
  | transport
  | http (status : Nat) (body : String)
deriving DecidableEq, Repr

/-- Classified result of `_request`: `success` (HTTP 200, parsed body),
`banned` (HTTP 418/403, `BinanceClientError "IP banned: ..."`),
`apiError` (other non-200, `BinanceClientError "API Error ..."`),
`maxRetriesExceeded` (transport failure on the last attempt) and
`requestFailed` (loop exhausted, `BinanceClientError "Request failed after
all retries"`). -/
inductive SendResult where
  | success (body : String)
  | banned (body : String)
  | apiError (status : Nat) (body : String)
  | maxRetriesExceeded
  | requestFailed
deriving DecidableEq, Repr

/-- Observable trace of one `_request` call: its classified result, the list
of `time.sleep` durations in seconds in the order they happen, and the number
of HTTP attempts actually issued. -/
structure Trace where
  result : SendResult
  sleeps : List Nat
  attempts : Nat
deriving DecidableEq, Repr

/-- The retry loop of `BinanceFuturesClient._request` (binance_client.py
lines 57-100). `resp i` is the outcome of the HTTP attempt with 0-based
index `i`; `attempt` is the current index and `remaining` the number of loop
iterations left (the loop is `for attempt in range(Config.MAX_RETRIES)`).
Branches, in source order: status 200 returns the body; status 429 sleeps
`RETRY_DELAY * (attempt + 1)` and continues; status 418 or 403 raises the
banned error; any other status raises the API error; a transport exception
on the last attempt raises max-retries-exceeded, otherwise sleeps
`RETRY_DELAY` and continues; a completed loop raises the generic failure. -/
def runAttempts (resp : Nat → Outcome) : Nat → Nat → Trace
  | _, 0 => ⟨.requestFailed, [], 0⟩
  | attempt, remaining + 1 =>
    match resp attempt with
    | .http status body =>
      if status = 200 then ⟨.success body, [], 1⟩
      else if status = 429 then
        let t := runAttempts resp (attempt + 1) remaining
        ⟨t.result, RETRY_DELAY * (attempt + 1) :: t.sleeps, t.attempts + 1⟩
      else if status = 418 ∨ status = 403 then ⟨.banned body, [], 1⟩
      else ⟨.apiError status body, [], 1⟩
    | .transport =>
      if attempt = MAX_RETRIES - 1 then ⟨.maxRetriesExceeded, [], 1⟩
      else
        let t := runAttempts resp (attempt + 1) remaining
        ⟨t.result, RETRY_DELAY :: t.sleeps, t.attempts + 1⟩

/-- The whole retry loop of one `_request` call: attempts start at index 0
with a budget of `MAX_RETRIES` iterations. -/
def sendTrace (resp : Nat → Outcome) : Trace :=
  runAttempts resp 0 MAX_RETRIES

/-! Step lemmas for the retry loop, one per branch of the source. -/

theorem runAttempts_200 (resp : Nat → Outcome) (a r : Nat) (body : String)
    (h : resp a = .http 200 body) :
    runAttempts resp a (r + 1) = ⟨.success body, [], 1⟩ := by
  simp [runAttempts, h]

theorem runAttempts_429 (resp : Nat → Outcome) (a r : Nat) (body : String)
    (h : resp a = .http 429 body) :
    runAttempts resp a (r + 1) =
      ⟨(runAttempts resp (a + 1) r).result,
       RETRY_DELAY * (a + 1) :: (runAttempts resp (a + 1) r).sleeps,
       (runAttempts resp (a + 1) r).attempts + 1⟩ := by
  simp [runAttempts, h]

theorem runAttempts_ban (resp : Nat → Outcome) (a r status : Nat) (body : String)
    (h : resp a = .http status body) (hs : status = 418 ∨ status = 403) :
    runAttempts resp a (r + 1) = ⟨.banned body, [], 1⟩ := by
  rcases hs with hs | hs <;> subst hs <;> simp [runAttempts, h]

theorem runAttempts_other (resp : Nat → Outcome) (a r status : Nat) (body : String)
    (h : resp a = .http status body) (h200 : status ≠ 200) (h429 : status ≠ 429)
    (h418 : status ≠ 418) (h403 : status ≠ 403) :
    runAttempts resp a (r + 1) = ⟨.apiError status body, [], 1⟩ := by
  simp [runAttempts, h, h200, h429, h418, h403]

theorem runAttempts_transport_last (resp : Nat → Outcome) (r : Nat)
    (h : resp (MAX_RETRIES - 1) = .transport) :
    runAttempts resp (MAX_RETRIES - 1) (r + 1) = ⟨.maxRetriesExceeded, [], 1⟩ := by
  simp [runAttempts, h]

theorem runAttempts_transport_retry (resp : Nat → Outcome) (a r : Nat)
    (h : resp a = .transport) (ha : a ≠ MAX_RETRIES - 1) :
    runAttempts resp a (r + 1) =
      ⟨(runAttempts resp (a + 1) r).result,
       RETRY_DELAY :: (runAttempts resp (a + 1) r).sleeps,
       (runAttempts resp (a + 1) r).attempts + 1⟩ := by
  simp [runAttempts, h, ha]

theorem runAttempts_attempts_le (resp : Nat → Outcome) :
    ∀ r a, (runAttempts resp a r).attempts ≤ r := by
  intro r
  induction r with
  | zero => intro a; simp [runAttempts]
  | succ r ih =>
    intro a
    rcases hr : resp a with _ | ⟨status, body⟩
    · simp only [runAttempts, hr]
      split
      · show 1 ≤ r + 1
        omega
      · show (runAttempts resp (a + 1) r).attempts + 1 ≤ r + 1
        exact Nat.succ_le_succ (ih (a + 1))
    · simp only [runAttempts, hr]
      split
      · show 1 ≤ r + 1
        omega
      · split
        · show (runAttempts resp (a + 1) r).attempts + 1 ≤ r + 1
          exact Nat.succ_le_succ (ih (a + 1))
        · split
          · show 1 ≤ r + 1
            omega
          · show 1 ≤ r + 1
            omega

/-! ### Claims about the retry loop -/

/-- C2: an HTTP attempt returning status 418 or 403 makes the request fail
immediately with the banned error on that very attempt — no further HTTP
attempt, sleep or retry happens regardless of how many attempts remain; in
particular the response sequence [418] fails with zero retries attempted
(exactly one attempt, no sleeps). -/
theorem banned_never_retried :
    (∀ (resp : Nat → Outcome) (attempt rem status : Nat) (body : String),
      resp attempt = .http status body → (status = 418 ∨ status = 403) →
      runAttempts resp attempt (rem + 1) = ⟨.banned body, [], 1⟩) ∧
    (∀ (resp : Nat → Outcome) (body : String),
      resp 0 = .http 418 body → sendTrace resp = ⟨.banned body, [], 1⟩) := by
  constructor
  · intro resp a r s b h hs
    exact runAttempts_ban resp a r s b h hs
  · intro resp b h
    show runAttempts resp 0 (2 + 1) = _
    exact runAttempts_ban resp 0 2 418 b h (Or.inl rfl)

theorem banned_never_retried_witness :
    sendTrace (fun _ => Outcome.http 418 "ban") =
      ⟨.banned "ban", [], 1⟩ :=
  banned_never_retried.2 (fun _ => Outcome.http 418 "ban") "ban" rfl

/-- C3: an HTTP 429 on attempt `i` (0-based) sleeps `RETRY_DELAY * (i+1)`
seconds and retries, consuming one of the `MAX_RETRIES` attempts like any
other attempt; the response sequence [429, 429, 200] on the 3-attempt budget
yields exactly the two backoff sleeps [1, 2] and returns success with the
parsed body. -/
theorem rate_limited_linear_backoff :
    (∀ (resp : Nat → Outcome) (attempt rem : Nat) (body : String),
      resp attempt = .http 429 body →
      runAttempts resp attempt (rem + 1) =
        ⟨(runAttempts resp (attempt + 1) rem).result,
         RETRY_DELAY * (attempt + 1) :: (runAttempts resp (attempt + 1) rem).sleeps,
         (runAttempts resp (attempt + 1) rem).attempts + 1⟩) ∧
    (∀ (resp : Nat → Outcome) (b0 b1 body : String),
      resp 0 = .http 429 b0 → resp 1 = .http 429 b1 → resp 2 = .http 200 body →
      sendTrace resp = ⟨.success body, [1, 2], 3⟩) := by
  constructor
  · intro resp a r b h
    exact runAttempts_429 resp a r b h
  · intro resp b0 b1 body h0 h1 h2
    have e2 := runAttempts_200 resp 2 0 body h2
    have e1 := runAttempts_429 resp 1 1 b1 h1
    have e0 := runAttempts_429 resp 0 2 b0 h0
    simp [RETRY_DELAY] at e0 e1 e2
    show runAttempts resp 0 3 = _
    rw [e0, e1, e2]

theorem rate_limited_linear_backoff_witness :
    sendTrace (fun i => if i < 2 then Outcome.http 429 "rl" else Outcome.http 200 "okbody") =
      ⟨.success "okbody", [1, 2], 3⟩ :=
  rate_limited_linear_backoff.2
    (fun i => if i < 2 then Outcome.http 429 "rl" else Outcome.http 200 "okbody")
    "rl" "rl" "okbody" rfl rfl rfl

/-- C4: a transport-level failure (connection error or timeout) on a
non-final attempt sleeps the fixed `RETRY_DELAY` (1s) and retries; a
transport failure on the final attempt (index `MAX_RETRIES - 1`) fails with
max-retries-exceeded; and no execution of the loop ever issues more than
`MAX_RETRIES` (3) HTTP attempts. -/
theorem transport_retry_policy :
    (∀ (resp : Nat → Outcome) (attempt rem : Nat),
      resp attempt = .transport → attempt ≠ MAX_RETRIES - 1 →
      runAttempts resp attempt (rem + 1) =
        ⟨(runAttempts resp (attempt + 1) rem).result,
         RETRY_DELAY :: (runAttempts resp (attempt + 1) rem).sleeps,
         (runAttempts resp (attempt + 1) rem).attempts + 1⟩) ∧
    (∀ (resp : Nat → Outcome) (rem : Nat),
      resp (MAX_RETRIES - 1) = .transport →
      runAttempts resp (MAX_RETRIES - 1) (rem + 1) = ⟨.maxRetriesExceeded, [], 1⟩) ∧
    (∀ resp : Nat → Outcome, (sendTrace resp).attempts ≤ MAX_RETRIES) := by
  refine ⟨?_, ?_, ?_⟩
  · intro resp a r h ha
    exact runAttempts_transport_retry resp a r h ha
  · intro resp r h
    exact runAttempts_transport_last resp r h
  · intro resp
    exact runAttempts_attempts_le resp MAX_RETRIES 0

theorem transport_retry_policy_witness :
    sendTrace (fun _ => Outcome.transport) = ⟨.maxRetriesExceeded, [1, 1], 3⟩ := by
  have h0 := transport_retry_policy.1 (fun _ => Outcome.transport) 0 2 rfl (by decide)
  have h1 := transport_retry_policy.1 (fun _ => Outcome.transport) 1 1 rfl (by decide)
  have h2 := transport_retry_policy.2.1 (fun _ => Outcome.transport) 0 rfl
  simp [MAX_RETRIES, RETRY_DELAY] at h0 h1 h2
  show runAttempts (fun _ => Outcome.transport) 0 3 = _
  rw [h0, h1, h2]

/-- C5: an HTTP response whose status is none of 200, 429, 418, 403 makes
the request fail immediately with the API error carrying the status code and
the parsed error body, with no retry and no backoff sleep. -/
theorem api_error_not_retried :
    (∀ (resp : Nat → Outcome) (attempt rem status : Nat) (body : String),
      resp attempt = .http status body →
      status ≠ 200 → status ≠ 429 → status ≠ 418 → status ≠ 403 →
      runAttempts resp attempt (rem + 1) = ⟨.apiError status body, [], 1⟩) ∧
    (∀ (resp : Nat → Outcome) (status : Nat) (body : String),
      resp 0 = .http status body →
      status ≠ 200 → status ≠ 429 → status ≠ 418 → status ≠ 403 →
      sendTrace resp = ⟨.apiError status body, [], 1⟩) := by
  constructor
  · intro resp a r s b h h200 h429 h418 h403
    exact runAttempts_other resp a r s b h h200 h429 h418 h403
  · intro resp s b h h200 h429 h418 h403
    show runAttempts resp 0 (2 + 1) = _
    exact runAttempts_other resp 0 2 s b h h200 h429 h418 h403

theorem api_error_not_retried_witness :
    sendTrace (fun _ => Outcome.http 400 "errbody") =
      ⟨.apiError 400 "errbody", [], 1⟩ :=
  api_error_not_retried.2 (fun _ => Outcome.http 400 "errbody") 400 "errbody"
    rfl (by decide) (by decide) (by decide) (by decide)

/-- C6: when all `MAX_RETRIES` (3) attempts return HTTP 429 the loop
completes without returning or raising early and the request fails with the
generic request-failed error — not a rate-limit-specific error, not banned,
and not max-retries-exceeded. (The code also sleeps after the third 429
before exiting the loop, hence sleeps [1, 2, 3].) -/
theorem exhausted_rate_limit_generic_failure
    (resp : Nat → Outcome) (b0 b1 b2 : String)
    (h0 : resp 0 = .http 429 b0) (h1 : resp 1 = .http 429 b1)
    (h2 : resp 2 = .http 429 b2) :
    sendTrace resp = ⟨.requestFailed, [1, 2, 3], 3⟩ := by
  have e2 := runAttempts_429 resp 2 0 b2 h2
  have e1 := runAttempts_429 resp 1 1 b1 h1
  have e0 := runAttempts_429 resp 0 2 b0 h0
  simp [RETRY_DELAY] at e0 e1 e2
  have e2' : runAttempts resp 2 1 = ⟨.requestFailed, [3], 1⟩ := by
    rw [e2]
    exact rfl
  show runAttempts resp 0 3 = _
  rw [e0, e1, e2']

theorem exhausted_rate_limit_generic_failure_witness :
    sendTrace (fun _ => Outcome.http 429 "rl") = ⟨.requestFailed, [1, 2, 3], 3⟩ :=
  exhausted_rate_limit_generic_failure (fun _ => Outcome.http 429 "rl")
    "rl" "rl" "rl" rfl rfl rfl

/-! ### Request signing (binance_client.py, `_generate_signature` and the
`signed` branch of `_request`) -/

/-- Uppercase hexadecimal digit for a value below 16, as `urllib` prints
percent-escapes. -/
def hexDigitUpper (n : Nat) : Char :=
  if n < 10 then Char.ofNat (48 + n) else Char.ofNat (55 + n)

/-- UTF-8 byte values of one character. -/
def utf8Bytes (c : Char) : List Nat :=
  let n := c.toNat
  if n < 128 then [n]
  else if n < 2048 then [192 + n / 64, 128 + n % 64]
  else if n < 65536 then [224 + n / 4096, 128 + (n / 64) % 64, 128 + n % 64]
  else [240 + n / 262144, 128 + (n / 4096) % 64, 128 + (n / 64) % 64, 128 + n % 64]

/-- Percent-escape of one byte value. -/
def percentByte (b : Nat) : String :=
  "%" ++ String.singleton (hexDigitUpper (b / 16)) ++ String.singleton (hexDigitUpper (b % 16))

/-- Model of `urllib.parse.quote_plus`: alphanumerics and `_.-~` kept,
space becomes `+`, every other character percent-escaped byte by byte. -/
def quotePlus (s : String) : String :=
  String.join (s.data.map fun c =>
    if c.isAlphanum || c = '_' || c = '.' || c = '-' || c = '~' then String.singleton c
    else if c = ' ' then "+"
    else String.join ((utf8Bytes c).map percentByte))

/-- Model of `urllib.parse.urlencode` on an ordered parameter mapping:
`key=value` pairs joined by `&`, both sides quoted. Parameters are modelled
as an association list in insertion order, matching the insertion-ordered
Python dict the source builds. -/
def urlencode (params : List (String × String)) : String :=
  String.intercalate "&" (params.map fun kv => quotePlus kv.1 ++ "=" ++ quotePlus kv.2)

/-- `BinanceFuturesClient._generate_signature` (binance_client.py lines
36-44): the signature is the MAC of the URL-encoding of the parameter
mapping. The HMAC-SHA256-lowercase-hex primitive itself is Python
`hmac`/`hashlib` library code, not code of this repository, so it is passed
in as the abstract function `hmacSha256Hex secret message`. -/
def generate_signature (hmacSha256Hex : String → String → String)
    (secret : String) (params : List (String × String)) : String :=
  hmacSha256Hex secret (urlencode params)

/-- The `if signed:` block of `_request` (binance_client.py lines 51-55),
executed once, before the retry loop: augment the parameters with
`timestamp = now_ms - 2000` and `recvWindow = DEFAULT_RECV_WINDOW`, then
add `signature`, computed over the mapping as it stands at that point
(timestamp and recvWindow included, signature itself not yet present). -/
def signParams (hmacSha256Hex : String → String → String) (secret : String)
    (nowMs : Int) (params : List (String × String)) : List (String × String) :=
  let augmented := params ++
    [("timestamp", toString (nowMs - 2000)), ("recvWindow", toString DEFAULT_RECV_WINDOW)]
  augmented ++ [("signature", generate_signature hmacSha256Hex secret augmented)]

/-- One full `_request` call: the final parameter mapping sent on every HTTP
attempt (signed once before the loop when `signed` is set, untouched
otherwise) together with the observable trace of the retry loop. -/
structure SendOutcome where
  finalParams : List (String × String)
  trace : Trace

/-- `BinanceFuturesClient._request` (binance_client.py lines 46-100):
optional signing, then the retry loop. -/
def send (hmacSha256Hex : String → String → String) (secret : String)
    (nowMs : Int) (params : List (String × String)) (signed : Bool)
    (resp : Nat → Outcome) : SendOutcome :=
  ⟨if signed then signParams hmacSha256Hex secret nowMs params else params,
   runAttempts resp 0 MAX_RETRIES⟩

/-- C1: on every signed `send`, before any HTTP attempt the parameter
mapping is augmented with `timestamp = nowMs - 2000` and
`recvWindow = 60000`, and the signature field is the HMAC-SHA256 lowercase
hex (the abstract `mac`) of the URL-encoding of exactly that augmented set —
timestamp and recvWindow included, the signature field itself excluded
(assuming the caller's parameters carry no `signature` key, as no caller in
the repository does); the retry-loop trace is the same whether or not the
request is signed, showing signing happens once before all attempts. -/
theorem signed_request_signature
    (mac : String → String → String) (secret : String) (nowMs : Int)
    (params : List (String × String)) (resp : Nat → Outcome)
    (hsig : "signature" ∉ params.map Prod.fst) :
    (send mac secret nowMs params true resp).finalParams =
      (params ++ [("timestamp", toString (nowMs - 2000)), ("recvWindow", "60000")]) ++
        [("signature",
          mac secret (urlencode
            (params ++ [("timestamp", toString (nowMs - 2000)), ("recvWindow", "60000")])))] ∧
    "signature" ∉
      (params ++ [("timestamp", toString (nowMs - 2000)), ("recvWindow", "60000")]).map
        Prod.fst ∧
    (send mac secret nowMs params true resp).trace =
      (send mac secret nowMs params false resp).trace := by
  refine ⟨?_, ?_, rfl⟩
  · show signParams mac secret nowMs params =
      (params ++ [("timestamp", toString (nowMs - 2000)), ("recvWindow", "60000")]) ++
        [("signature", _)]
    unfold signParams generate_signature
    rfl
  · intro hmem
    rcases List.mem_map.mp hmem with ⟨kv, hkv, hfst⟩
    rcases List.mem_append.mp hkv with hkv | hkv
    · exact hsig (List.mem_map.mpr ⟨kv, hkv, hfst⟩)
    · simp only [List.mem_cons, List.not_mem_nil, or_false] at hkv
      rcases hkv with hkv | hkv
      · rw [hkv] at hfst
        have hne : ("timestamp" : String) ≠ "signature" := by decide
        exact hne hfst
      · rw [hkv] at hfst
        have hne : ("recvWindow" : String) ≠ "signature" := by decide
        exact hne hfst

theorem signed_request_signature_witness :
    (send (fun _ m => m) "secret" 5000 [("symbol", "BTCUSDT")] true
        (fun _ => Outcome.transport)).finalParams =
      ([("symbol", "BTCUSDT")] ++
          [("timestamp", toString ((5000 : Int) - 2000)), ("recvWindow", "60000")]) ++
        [("signature",
          (fun _ m => m : String → String → String) "secret" (urlencode
            ([("symbol", "BTCUSDT")] ++
              [("timestamp", toString ((5000 : Int) - 2000)), ("recvWindow", "60000")])))] ∧
    "signature" ∉
      (([("symbol", "BTCUSDT")] : List (String × String)) ++
          [("timestamp", toString ((5000 : Int) - 2000)), ("recvWindow", "60000")]).map
        Prod.fst ∧
    (send (fun _ m => m) "secret" 5000 [("symbol", "BTCUSDT")] true
        (fun _ => Outcome.transport)).trace =
      (send (fun _ m => m) "secret" 5000 [("symbol", "BTCUSDT")] false
        (fun _ => Outcome.transport)).trace :=
  signed_request_signature (fun _ m => m) "secret" 5000 [("symbol", "BTCUSDT")]
    (fun _ => Outcome.transport) (by decide)

/-! ### Grid strategy (grid_orders.py, `GridOrderExecutor.execute`) -/

/-- Python `round(x, 2)`. -/
def round2 (x : ℚ) : ℚ := ((round (x * 100) : ℤ) : ℚ) / 100

/-- Python `round(x, 8)`. -/
def round8 (x : ℚ) : ℚ := ((round (x * 100000000) : ℤ) : ℚ) / 100000000

/-- Order side. -/
inductive Side where
  | BUY
  | SELL
deriving DecidableEq, Repr

/-- `mid_price = (lower_price + upper_price) / 2` (grid_orders.py line 40). -/
def midPrice (lower upper : ℚ) : ℚ := (lower + upper) / 2

/-- `grid_price = round(lower_price + (i * price_step), 2)` with
`price_step = (upper_price - lower_price) / (num_grids - 1)`
(grid_orders.py lines 28 and 43). -/
def gridPrice (lower upper : ℚ) (numGrids : ℕ) (i : ℕ) : ℚ :=
  round2 (lower + i * ((upper - lower) / ((numGrids - 1 : ℕ) : ℚ)))

/-- The grid prices visited by the loop `for i in range(num_grids)`. -/
def gridPricesList (lower upper : ℚ) (numGrids : ℕ) : List ℚ :=
  (List.range numGrids).map (gridPrice lower upper numGrids)

/-- The limit orders the grid loop attempts to place, in loop order
(grid_orders.py lines 42-71): BUY when the grid price is strictly below the
midpoint, SELL when strictly above, nothing when equal. Per-slice failures
are caught and logged without changing which orders are attempted. -/
def gridAttempts (lower upper : ℚ) (numGrids : ℕ) : List (ℚ × Side) :=
  (List.range numGrids).filterMap fun i =>
    if gridPrice lower upper numGrids i < midPrice lower upper then
      some (gridPrice lower upper numGrids i, Side.BUY)
    else if midPrice lower upper < gridPrice lower upper numGrids i then
      some (gridPrice lower upper numGrids i, Side.SELL)
    else none

/-- C7: with validated inputs (`lower < upper`, `numGrids ≥ 2`) the grid
prices are `lower + i*(upper-lower)/(numGrids-1)` rounded to 2 decimals for
`i = 0..numGrids-1`; a BUY is attempted exactly at grid prices strictly
below the midpoint `(lower+upper)/2` and a SELL exactly at prices strictly
above it, so a grid price equal to the midpoint is placed on neither side;
for lower=100, upper=200, numGrids=3 the prices are [100, 150, 200] and 150
is never placed. -/
theorem grid_midpoint_exclusion (lower upper : ℚ) (n : ℕ)
    (_hlu : lower < upper) (_hn : 2 ≤ n) :
    (∀ (p : ℚ) (s : Side),
      (p, s) ∈ gridAttempts lower upper n ↔
        (∃ i, i < n ∧ gridPrice lower upper n i = p) ∧
          ((s = Side.BUY ∧ p < midPrice lower upper) ∨
           (s = Side.SELL ∧ midPrice lower upper < p))) ∧
    gridPricesList 100 200 3 = [100, 150, 200] ∧
    gridAttempts 100 200 3 = [(100, Side.BUY), (200, Side.SELL)] ∧
    (∀ s : Side, ((150 : ℚ), s) ∉ gridAttempts 100 200 3) := by
  have hr3 : List.range 3 = [0, 1, 2] := rfl
  have hp0 : gridPrice 100 200 3 0 = 100 := by
    norm_num [gridPrice, round2, round_eq]
  have hp1 : gridPrice 100 200 3 1 = 150 := by
    norm_num [gridPrice, round2, round_eq]
  have hp2 : gridPrice 100 200 3 2 = 200 := by
    norm_num [gridPrice, round2, round_eq]
  have hmid : midPrice 100 200 = 150 := by
    norm_num [midPrice]
  have hatt : gridAttempts 100 200 3 = [(100, Side.BUY), (200, Side.SELL)] := by
    rw [gridAttempts, hr3]
    norm_num [List.filterMap_cons, hp0, hp1, hp2, hmid]
  refine ⟨?_, ?_, hatt, ?_⟩
  · intro p s
    constructor
    · intro hmem
      rcases List.mem_filterMap.mp hmem with ⟨i, hi, hf⟩
      rw [List.mem_range] at hi
      split_ifs at hf with h1 h2
      · rcases Option.some.inj hf with hps
        rw [Prod.mk.injEq] at hps
        refine ⟨⟨i, hi, hps.1⟩, Or.inl ⟨hps.2.symm, hps.1 ▸ h1⟩⟩
      · rcases Option.some.inj hf with hps
        rw [Prod.mk.injEq] at hps
        refine ⟨⟨i, hi, hps.1⟩, Or.inr ⟨hps.2.symm, hps.1 ▸ h2⟩⟩
    · rintro ⟨⟨i, hi, hp⟩, hside⟩
      apply List.mem_filterMap.mpr
      refine ⟨i, List.mem_range.mpr hi, ?_⟩
      rcases hside with ⟨hs, hlt⟩ | ⟨hs, hgt⟩
      · subst hs
        rw [← hp] at hlt
        rw [if_pos hlt, hp]
      · subst hs
        rw [← hp] at hgt
        rw [if_neg (lt_asymm hgt), if_pos hgt, hp]
  · rw [gridPricesList, hr3]
    simp [hp0, hp1, hp2]
  · intro s hmem
    rw [hatt] at hmem
    rcases List.mem_cons.mp hmem with hmem | hmem
    · rw [Prod.mk.injEq] at hmem
      exact absurd hmem.1 (by norm_num)
    · rcases List.mem_cons.mp hmem with hmem | hmem
      · rw [Prod.mk.injEq] at hmem
        exact absurd hmem.1 (by norm_num)
      · cases hmem

theorem grid_midpoint_exclusion_witness :
    (∀ (p : ℚ) (s : Side),
      (p, s) ∈ gridAttempts 100 200 3 ↔
        (∃ i, i < 3 ∧ gridPrice 100 200 3 i = p) ∧
          ((s = Side.BUY ∧ p < midPrice 100 200) ∨
           (s = Side.SELL ∧ midPrice 100 200 < p))) ∧
    gridPricesList 100 200 3 = [100, 150, 200] ∧
    gridAttempts 100 200 3 = [(100, Side.BUY), (200, Side.SELL)] ∧
    (∀ s : Side, ((150 : ℚ), s) ∉ gridAttempts 100 200 3) :=
  grid_midpoint_exclusion 100 200 3 (by norm_num) (by norm_num)

/-! ### TWAP strategy (twap.py, `TWAPExecutor.execute`) -/

/-- One entry of the TWAP result list: a placed market order of the given
quantity, or the error record `{'error': ..., 'slice': i+1}` appended when
slice `i` (0-based) fails. -/
inductive TwapEntry where
  | order (qty : ℚ)
  | errorSlice (slice : Nat)
deriving DecidableEq, Repr

/-- The quantity of each TWAP market-order slice:
`order_size = total_quantity / num_orders` (twap.py line 29), rounded to 8
decimals when the order parameters are built (twap.py line 49). -/
def twapQty (total : ℚ) (numOrders : ℕ) : ℚ :=
  round8 (total / (numOrders : ℚ))

/-- One iteration of the TWAP loop (twap.py lines 41-65): `ok i` tells
whether `place_order` succeeds on slice `i`. On success the order result is
appended, then `time.sleep(interval_seconds)` runs when `i < num_orders - 1`;
on failure the exception is caught, an error entry is appended, and — the
sleep being inside the same `try` after the failing call — no sleep happens.
Returns the result entry and the list of sleeps of this iteration. -/
def twapSlice (ok : Nat → Bool) (total : ℚ) (numOrders intervalSeconds : ℕ)
    (i : Nat) : TwapEntry × List Nat :=
  if ok i then
    (.order (twapQty total numOrders),
     if i < numOrders - 1 then [intervalSeconds] else [])
  else (.errorSlice (i + 1), [])

/-- The TWAP result list over `for i in range(num_orders)`. -/
def twapResults (ok : Nat → Bool) (total : ℚ) (numOrders intervalSeconds : ℕ) :
    List TwapEntry :=
  (List.range numOrders).map fun i => (twapSlice ok total numOrders intervalSeconds i).1

/-- The inter-slice sleeps of the TWAP loop, in order. -/
def twapSleeps (ok : Nat → Bool) (total : ℚ) (numOrders intervalSeconds : ℕ) :
    List Nat :=
  (List.range numOrders).flatMap fun i => (twapSlice ok total numOrders intervalSeconds i).2

theorem range_bind_if_lt (c : Nat) (b : Nat) :
    ∀ m, (List.range m).flatMap (fun i => if i < b then [c] else []) =
      List.replicate (min m b) c := by
  intro m
  induction m with
  | zero => simp
  | succ m ih =>
    rw [List.range_succ, List.flatMap_append, ih]
    simp only [List.flatMap_cons, List.flatMap_nil, List.append_nil]
    by_cases hm : m < b
    · rw [if_pos hm]
      have h2 : m ⊓ b = m := by omega
      rw [h2, show (m + 1) ⊓ b = m + 1 from by omega, List.replicate_succ']
    · rw [if_neg hm]
      simp [show (m + 1) ⊓ b = m ⊓ b from by omega]

theorem flatMap_if_singleton_length (l : List Nat) (p : Nat → Bool) (c : Nat) :
    (l.flatMap fun i => if p i then [c] else []).length = (l.filter p).length := by
  induction l with
  | nil => simp
  | cons a l ih =>
    simp only [List.flatMap_cons, List.length_append, ih, List.filter_cons]
    by_cases hp : p a <;> simp [hp, Nat.add_comm]

/-- C8: with validated inputs the total quantity is split into `numOrders`
market-order slices each of quantity `total / numOrders` rounded to 8
decimals, and when every slice succeeds there are exactly `numOrders - 1`
inter-slice sleeps of `intervalSeconds`, none after the last slice; for
total=1 and numOrders=4 each slice is 0.25. -/
theorem twap_even_slices (ok : Nat → Bool) (total : ℚ) (n interval : ℕ)
    (hn : 1 ≤ n) (hok : ∀ i, ok i = true) :
    twapResults ok total n interval =
      List.replicate n (TwapEntry.order (twapQty total n)) ∧
    twapSleeps ok total n interval = List.replicate (n - 1) interval ∧
    twapQty 1 4 = 1 / 4 := by
  have hres : ∀ i, (twapSlice ok total n interval i).1 =
      TwapEntry.order (twapQty total n) := by
    intro i
    simp [twapSlice, hok i]
  have hslp : (fun i => (twapSlice ok total n interval i).2) =
      (fun i => if i < n - 1 then [interval] else []) := by
    funext i
    simp [twapSlice, hok i]
  refine ⟨?_, ?_, ?_⟩
  · rw [twapResults, List.map_congr_left (fun i _ => hres i), List.map_const',
      List.length_range]
  · rw [twapSleeps, hslp, range_bind_if_lt, show n ⊓ (n - 1) = n - 1 from by omega]
  · norm_num [twapQty, round8, round_eq]

theorem twap_even_slices_witness :
    twapResults (fun _ => true) 1 4 60 =
      List.replicate 4 (TwapEntry.order (1 / 4)) ∧
    twapSleeps (fun _ => true) 1 4 60 = List.replicate 3 60 := by
  have h := twap_even_slices (fun _ => true) 1 4 60 (by decide) (fun _ => rfl)
  exact ⟨h.2.2 ▸ h.1, h.2.1⟩

/-- C10: when a non-final slice's order placement fails, the inter-slice
sleep of that iteration is skipped (the error is recorded and execution
proceeds to the next slice), so the number of inter-slice sleeps equals the
number of successful non-final slices rather than always `numOrders - 1`;
each slice, failed or successful, contributes exactly one entry to the
result list: a placed order of the slice quantity on success, an error
record naming slice `i+1` on failure. -/
theorem twap_sleep_skipped_on_error (ok : Nat → Bool) (total : ℚ)
    (n interval : ℕ) :
    (twapResults ok total n interval).length = n ∧
    (twapSleeps ok total n interval).length =
      ((List.range n).filter fun i => ok i && decide (i < n - 1)).length ∧
    (∀ i, i < n →
      (twapResults ok total n interval)[i]? =
        some (if ok i then TwapEntry.order (twapQty total n)
              else TwapEntry.errorSlice (i + 1))) := by
  refine ⟨?_, ?_, ?_⟩
  · simp [twapResults]
  · have hslp : (fun i => (twapSlice ok total n interval i).2) =
        (fun i => if (ok i && decide (i < n - 1)) then [interval] else []) := by
      funext i
      by_cases h1 : ok i
      · by_cases h2 : i < n - 1 <;> simp [twapSlice, h1, h2]
      · simp [twapSlice, h1]
    rw [twapSleeps, hslp, flatMap_if_singleton_length]
  · intro i hi
    rw [twapResults, List.getElem?_map, List.getElem?_range hi]
    by_cases h1 : ok i <;> simp [twapSlice, h1]

theorem twap_sleep_skipped_on_error_witness :
    (twapResults (fun i => i != 1) 1 4 60)[1]? =
      some (TwapEntry.errorSlice 2) :=
  (twap_sleep_skipped_on_error (fun i => i != 1) 1 4 60).2.2 1 (by decide)

/-! ### Input validation (validators.py, `OrderValidator.validate_quantity`) -/

/-- A value handed to `validate_quantity`: an already-numeric value or a
string. (The repository's callers pass CLI floats and strings.) -/
inductive PyVal where
  | num (x : ℚ)
  | str (s : String)
deriving DecidableEq, Repr

/-- Digit run to a number: fails on the first non-digit character. -/
def parseDigitsAux : List Char → Nat → Option Nat
  | [], acc => some acc
  | c :: cs, acc =>
    if c.isDigit then parseDigitsAux cs (acc * 10 + (c.toNat - 48)) else none

/-- Decimal mantissa of an unsigned decimal literal: returns the digits'
value together with the number of fraction digits, so the denoted number is
`value / 10 ^ fracLen`. Accepts `d+`, `d+.d*`, `.d+`; rejects the empty
string, a lone dot, a second dot, and any other character. -/
def parseMantissa (cs : List Char) : Option (Nat × Nat) :=
  let ipart := cs.takeWhile (fun c => c ≠ '.')
  let rest := cs.dropWhile (fun c => c ≠ '.')
  match rest with
  | [] =>
    if ipart.isEmpty then none
    else (parseDigitsAux ipart 0).map (fun n => (n, 0))
  | _ :: fpart =>
    if fpart.contains '.' ∨ (ipart.isEmpty ∧ fpart.isEmpty) then none
    else
      match parseDigitsAux ipart 0, parseDigitsAux fpart 0 with
      | some ip, some fp => some (ip * 10 ^ fpart.length + fp, fpart.length)
      | _, _ => none

/-- Leading and trailing whitespace removed. -/
def stripChars (cs : List Char) : List Char :=
  ((cs.dropWhile Char.isWhitespace).reverse.dropWhile Char.isWhitespace).reverse

/-- The rational a parsed mantissa denotes. -/
def mantissaToRat (mk : Nat × Nat) : ℚ := (mk.1 : ℚ) / (10 : ℚ) ^ mk.2

/-- Modelled from the spec: the Python builtin `float(quantity)` used by
`validate_quantity` (Python library code, not code of this repository).
Numbers coerce to themselves; strings are stripped of surrounding
whitespace and parsed as an optionally signed plain decimal literal,
failing on non-numeric input ("coercible to a positive floating-point
number; fails if ≤0 or non-numeric"). Exponent forms, `inf`/`nan` and digit
underscores, which Python also accepts, are outside the behaviour any claim
exercises and are not modelled. -/
def pyFloat : PyVal → Option ℚ
  | .num x => some x
  | .str s =>
    match stripChars s.data with
    | '-' :: rest => (parseMantissa rest).map (fun mk => -(mantissaToRat mk))
    | '+' :: rest => (parseMantissa rest).map mantissaToRat
    | cs => (parseMantissa cs).map mantissaToRat

/-- `OrderValidator.validate_quantity` (validators.py lines 46-57):
coerce with `float(...)`, failing with the non-numeric `ValidationError`
when coercion raises; then reject values ≤ 0 with the non-positive
`ValidationError`; otherwise return the coerced value. (Python interpolates
the offending value into the message; the messages here carry the fixed
prefix only.) -/
def validate_quantity (q : PyVal) : Except String ℚ :=
  match pyFloat q with
  | none => Except.error "Quantity must be a number"
  | some x => if x ≤ 0 then Except.error "Quantity must be positive" else Except.ok x

/-- C9: `validate_quantity q` returns the float coercion of `q` exactly when
`q` coerces to a strictly positive number, and fails with `ValidationError`
in every other case (coercible but ≤ 0, or non-numeric); in particular
`validate_quantity(-1)`, `validate_quantity(0)` and `validate_quantity("abc")`
fail, and `validate_quantity("0.001")` returns `0.001`. -/
theorem validate_quantity_spec :
    (∀ (q : PyVal) (x : ℚ),
      validate_quantity q = Except.ok x ↔ pyFloat q = some x ∧ 0 < x) ∧
    validate_quantity (PyVal.num (-1)) = Except.error "Quantity must be positive" ∧
    validate_quantity (PyVal.num 0) = Except.error "Quantity must be positive" ∧
    validate_quantity (PyVal.str "abc") = Except.error "Quantity must be a number" ∧
    validate_quantity (PyVal.str "0.001") = Except.ok (1 / 1000) := by
  refine ⟨?_, ?_, ?_, ?_, ?_⟩
  · intro q x
    unfold validate_quantity
    rcases h : pyFloat q with _ | y
    · simp
    · show (if y ≤ 0 then Except.error "Quantity must be positive" else Except.ok y)
          = Except.ok x ↔ some y = some x ∧ 0 < x
      simp only [Option.some.injEq]
      split_ifs with hy
      · constructor
        · intro he
          cases he
        · rintro ⟨rfl, hpos⟩
          exact absurd hpos (not_lt.mpr hy)
      · constructor
        · intro he
          cases he
          exact ⟨rfl, not_le.mp hy⟩
        · rintro ⟨rfl, _⟩
          rfl
  · show (if (-1 : ℚ) ≤ 0 then Except.error "Quantity must be positive"
        else Except.ok (-1 : ℚ)) = Except.error "Quantity must be positive"
    rw [if_pos (by norm_num : (-1 : ℚ) ≤ 0)]
  · show (if (0 : ℚ) ≤ 0 then Except.error "Quantity must be positive"
        else Except.ok (0 : ℚ)) = Except.error "Quantity must be positive"
    rw [if_pos (by norm_num : (0 : ℚ) ≤ 0)]
  · exact rfl
  · have hm : parseMantissa ['0', '.', '0', '0', '1'] = some (1, 3) := by decide
    have hf : pyFloat (PyVal.str "0.001") = some (1 / 1000) := by
      show (parseMantissa ['0', '.', '0', '0', '1']).map mantissaToRat = some (1 / 1000)
      rw [hm]
      norm_num [Option.map, mantissaToRat]
    unfold validate_quantity
    rw [hf]
    show (if (1 / 1000 : ℚ) ≤ 0 then Except.error "Quantity must be positive"
        else Except.ok ((1 : ℚ) / 1000)) = Except.ok (1 / 1000)
    rw [if_neg (by norm_num : ¬ (1 / 1000 : ℚ) ≤ 0)]

theorem validate_quantity_spec_witness :
    validate_quantity (PyVal.num 2) = Except.ok 2 ↔
      pyFloat (PyVal.num 2) = some 2 ∧ (0 : ℚ) < 2 :=
  validate_quantity_spec.1 (PyVal.num 2) 2
